import Mathlib

/-!
Verification development for the `pdum_gcp` container-hierarchy core
(`src/pdum/gcp/types/container.py`, `folder.py`, `organization.py`,
`no_org.py`, `project.py`) and the API-name resolver described by the
repository's specification.

The remote Cloud Resource Manager directory is modelled as a finite rose
tree (`RemoteTree`): the hierarchy is a tree by construction (every folder
has exactly one parent), and every listing call is modelled as fully
drained pagination, i.e. a plain list.
-/

namespace PdumGcp

/-- One project entry of a remote `projects().list()` response.
`parentType` is the `parent.type` field of the v1 response (`none` when the
response dict has no parent type), used only by `_NoOrgSentinel.projects`. -/
structure ProjectData where
  projectId : String
  name : String
  projectNumber : String
  lifecycleState : String
  parentType : Option String
deriving DecidableEq, Repr

/-- Container snapshots: `Organization`, `Folder` (dataclasses in
`organization.py` / `folder.py`) and the `_NoOrgSentinel` singleton `NO_ORG`
(`no_org.py`), kept apart by construction (identity, not field values). -/
inductive Container where
  | organization (id resource_name display_name : String)
  | folder (id resource_name display_name parent_resource_name : String)
  | NO_ORG
deriving DecidableEq, Repr

/-- The `resource_name` attribute; the sentinel's is fixed to `"NO_ORG"` in
`_NoOrgSentinel.__new__`. -/
def Container.resource_name : Container → String
  | .organization _ rn _ => rn
  | .folder _ rn _ _ => rn
  | .NO_ORG => "NO_ORG"

/-- The `display_name` attribute; the sentinel's is fixed to `"No Organization"`
in `_NoOrgSentinel.__new__`. -/
def Container.display_name : Container → String
  | .organization _ _ dn => dn
  | .folder _ _ dn _ => dn
  | .NO_ORG => "No Organization"

/-- The `Project` dataclass (`project.py`): value snapshot carrying the parent
container it was listed under. -/
structure Project where
  id : String
  name : String
  project_number : String
  lifecycle_state : String
  parent : Container
deriving DecidableEq, Repr

/-- The remote directory hierarchy beneath one organization or folder node:
`name`/`displayName` are the fields the folders listing returns for the node,
`projects` the fully drained `projects().list(parent=name)` response and
`folders` the fully drained `folders().list(parent=name)` children. -/
inductive RemoteTree where
  | node (name displayName : String) (projects : List ProjectData)
      (folders : List RemoteTree)
deriving Repr

def RemoteTree.name : RemoteTree → String
  | .node n _ _ _ => n

def RemoteTree.displayName : RemoteTree → String
  | .node _ dn _ _ => dn

def RemoteTree.projects : RemoteTree → List ProjectData
  | .node _ _ ps _ => ps

def RemoteTree.folders : RemoteTree → List RemoteTree
  | .node _ _ _ cs => cs

/-- The remote world a container call sees: the hierarchy under the
container's resource name, plus the v1 `projects().list()` response used by
`_NoOrgSentinel.projects` (projects of every parent kind, with parent type). -/
structure Remote where
  subtree : RemoteTree
  v1Projects : List ProjectData
deriving Repr

/-- Python `str.split(sep)` for a single-character separator, over the
character list. -/
def splitChars (sep : Char) : List Char → List (List Char)
  | [] => [[]]
  | c :: rest =>
    match splitChars sep rest with
    | [] => [[]]
    | g :: gs => if c == sep then [] :: g :: gs else (c :: g) :: gs

/-- Python `s.split(sep)` for a single-character separator. -/
def pySplit (s : String) (sep : Char) : List String :=
  (splitChars sep s.toList).map String.mk

/-- Python `s.lower()`. -/
def pyLower (s : String) : String :=
  String.mk (s.toList.map Char.toLower)

/-- Translation of a `Folder.folders` / `Organization.folders` listing entry:
`Folder(id=name.split("/")[1], resource_name=name, display_name=displayName,
parent_resource_name=self.resource_name)`. -/
def folderSnapshot (parent_resource_name : String) (c : RemoteTree) : Container :=
  .folder ((pySplit c.name '/').getD 1 "") c.name c.displayName parent_resource_name

/-- Translation of `_project_from_api_response` (`project.py`): builds a `Project` from a
response entry, setting `parent` to the listing container. -/
def _project_from_api_response (p : ProjectData) (parent : Container) : Project :=
  ⟨p.projectId, p.name, p.projectNumber, p.lifecycleState, parent⟩

/-- The parent filter of `_NoOrgSentinel.projects`:
`if not parent_type or parent_type not in ("organization", "folder")`. -/
def isParentless (p : ProjectData) : Bool :=
  match p.parentType with
  | none => true
  | some t => (t == "") || (!(t == "organization") && !(t == "folder"))

/-- The `projects()` dispatch: `Organization.projects` / `Folder.projects` list
under `self.resource_name` (the node's response), `_NoOrgSentinel.projects`
filters the v1 listing to parentless entries; each entry goes through
`_project_from_api_response` with `parent=self`. -/
def Container.projectsOp (self : Container) (r : Remote) : List Project :=
  match self with
  | .NO_ORG => (r.v1Projects.filter isParentless).map
      (fun p => _project_from_api_response p .NO_ORG)
  | _ => r.subtree.projects.map (fun p => _project_from_api_response p self)

/-- The `folders()` dispatch, keeping each child `Folder` snapshot paired with the
remote subtree under it; `_NoOrgSentinel.folders` returns `[]` as a fixed
policy with no remote call. -/
def Container.foldersWithTrees (self : Container) (r : Remote) :
    List (Container × RemoteTree) :=
  match self with
  | .NO_ORG => []
  | _ => r.subtree.folders.map (fun c => (folderSnapshot self.resource_name c, c))

/-- The `folders()` dispatch as the source returns it: just the `Folder` values. -/
def Container.foldersOp (self : Container) (r : Remote) : List Container :=
  (self.foldersWithTrees r).map (fun fs => fs.1)

/-- The filter of the first loop of `Container.walk_projects`:
`if active_only and project.lifecycle_state != "ACTIVE": continue`. -/
def keepProject (active_only : Bool) (p : Project) : Bool :=
  !(active_only && !(p.lifecycle_state == "ACTIVE"))

mutual
/-- Recursive engine of `Container.walk_projects` for an organization or
folder `self` whose listings come from tree `t`: yield `self`'s projects
through the active filter, then recurse into each child folder in listing
order. -/
def treeWalk (active_only : Bool) (self : Container) : RemoteTree → List Project
  | .node _ _ ps cs =>
      ((ps.map (fun p => _project_from_api_response p self)).filter
          (keepProject active_only))
        ++ forestWalk active_only self.resource_name cs

/-- The second loop of `Container.walk_projects`: `for folder in
self.folders(...): yield from folder.walk_projects(...)`, child snapshots
built with `parent_resource_name = prn`. -/
def forestWalk (active_only : Bool) (prn : String) : List RemoteTree → List Project
  | [] => []
  | c :: cs =>
      treeWalk active_only (folderSnapshot prn c) c
        ++ forestWalk active_only prn cs
end

/-- Translation of `Container.walk_projects` (`container.py` lines 266-294): yields
`self.projects()` filtered by the active test, then for each folder of
`self.folders()` recursively walks it. For `NO_ORG` the folder loop is over
the fixed empty listing. -/
def walk_projects (active_only : Bool) (self : Container) (r : Remote) :
    List Project :=
  ((self.projectsOp r).filter (keepProject active_only))
    ++ forestWalk active_only self.resource_name
        (match self with | .NO_ORG => [] | _ => r.subtree.folders)

/-- Errors raised by `Container.cd` / `_NoOrgSentinel.cd`, one constructor
per raise site: `unsupportedOperation` is the `TypeError` of the `NO_ORG`
guard, `invalidArgument` the `ValueError("Path cannot be empty")`, and
`notFound` the `ValueError` whose message interpolates the missing component,
the current container's display name and the available sibling folder
display names. -/
inductive CdError where
  | unsupportedOperation
  | invalidArgument
  | notFound (component : String) (container_display_name : String)
      (available : List String)
deriving DecidableEq, Repr

/-- Python `s.strip("/")`. -/
def stripSlashes (s : String) : String :=
  String.mk (((s.toList.dropWhile (fun c => c == '/')).reverse.dropWhile
    (fun c => c == '/')).reverse)

/-- The component loop of `Container.cd`: list the current container's child
folders, pick the first whose `display_name` equals the component
(`next(...)`), fail carrying the available display names when none matches. -/
def cdLoop : List String → Container → Remote → Except CdError Container
  | [], current, _ => .ok current
  | component :: rest, current, r =>
    let folders := current.foldersWithTrees r
    match folders.find? (fun fs => fs.1.display_name == component) with
    | none => .error (.notFound component current.display_name
        (folders.map (fun fs => fs.1.display_name)))
    | some fs => cdLoop rest fs.1 ⟨fs.2, r.v1Projects⟩

/-- Translation of `Container.cd` (`container.py` lines 338-389): refuse `NO_ORG`
(`TypeError`, the same failure `_NoOrgSentinel.cd` raises directly), strip
leading/trailing slashes, refuse an empty result, then walk the
slash-separated components. -/
def cd (self : Container) (r : Remote) (path : String) : Except CdError Container :=
  if self = .NO_ORG then
    .error .unsupportedOperation
  else
    let clean_path := stripSlashes path
    if clean_path = "" then .error .invalidArgument
    else cdLoop (pySplit clean_path '/') self r

/-- From the spec (§8 tree shape invariant): a project is reachable from
container `self` by finite recursive descent through the child-folder
listing when it is listed directly under `self` (and passes the active
filter), or is reachable under one of `self`'s immediate child folders. -/
inductive Reaches (active_only : Bool) : Container → Remote → Project → Prop where
  | here {self : Container} {r : Remote} {p : Project} :
      p ∈ self.projectsOp r → keepProject active_only p = true →
      Reaches active_only self r p
  | child {self : Container} {r : Remote} {p : Project}
      (fs : Container × RemoteTree) :
      fs ∈ self.foldersWithTrees r →
      Reaches active_only fs.1 ⟨fs.2, r.v1Projects⟩ p →
      Reaches active_only self r p

/-- The containers the traversal visits, each with the remote world its
listing calls see: the root itself, or any container reached through a
child-folder snapshot. -/
inductive Visits : Container → Remote → Container → Remote → Prop where
  | refl {self : Container} {r : Remote} : Visits self r self r
  | child {self : Container} {r : Remote} {c : Container} {r' : Remote}
      (fs : Container × RemoteTree) :
      fs ∈ self.foldersWithTrees r →
      Visits fs.1 ⟨fs.2, r.v1Projects⟩ c r' →
      Visits self r c r'

mutual
/-- All project ids listed anywhere in a remote subtree. -/
def treeIds : RemoteTree → List String
  | .node _ _ ps cs => ps.map (fun p => p.projectId) ++ forestIds cs

/-- All project ids listed anywhere in a list of remote subtrees. -/
def forestIds : List RemoteTree → List String
  | [] => []
  | c :: cs => treeIds c ++ forestIds cs
end

/-- All project ids the traversal from `self` can see: `self`'s own listing
plus everything in the subtrees it descends into. -/
def allIds (self : Container) (r : Remote) : List String :=
  (self.projectsOp r).map (fun p => p.id)
    ++ forestIds (match self with | .NO_ORG => [] | _ => r.subtree.folders)

/-- Python `needle in hay` over character lists. -/
def charsContain (needle : List Char) : List Char → Bool
  | [] => needle.isEmpty
  | c :: rest => needle.isPrefixOf (c :: rest) || charsContain needle rest

/-- Python `needle in hay` on strings. -/
def strContains (hay needle : String) : Bool :=
  charsContain needle.toList hay.toList

/-- Modelled from the spec (§4.2 tier 2): `lookup_api` itself is not under
`src` (only its import in `pdum/gcp/__init__.py` and its unit tests are), so
its normalization is taken from the spec's words: lower-case and strip the
substring `"cloud"` together with its surrounding whitespace. -/
def normalizeApiName (s : String) : String :=
  String.intercalate " "
    ((pySplit (pyLower s) ' ').filter (fun w => !(w == "cloud") && !(w == "")))

/-- Failure taxonomy of the resolver per the spec (§7): the source's single
`APIResolutionError` (`types/exceptions.py`) covers both cases; the spec
distinguishes the ambiguous case, which always carries the candidate list,
from the not-found case. -/
inductive APIError where
  | ambiguous (candidates : List String)
  | notFound
deriving DecidableEq, Repr

/-- Modelled from the spec (§4.2 tier 4): the final fuzzy tier. The
`difflib.get_close_matches(name, keys, n=5, cutoff=0.6)` routine is an
external standard-library collaborator and is passed in as `closeMatches`.
Exactly one candidate resolves to its id; two or more fail ambiguous; none
fail not-found. -/
def fuzzyTier (closeMatches : String → List String → List String)
    (table : List (String × String)) (name : String) : Except APIError String :=
  match closeMatches name (table.map (fun kv => kv.1)) with
  | [] => .error .notFound
  | [k] =>
    match table.find? (fun kv => kv.1 == k) with
    | some kv => .ok kv.2
    | none => .error .notFound
  | ks => .error (.ambiguous ks)

/-- Modelled from the spec (§4.2): `lookup_api` is absent from `src` (only
`pdum/gcp/__init__.py` imports it and `tests/test_lookup_api_unit.py`
exercises it), so the tier algorithm follows the spec's words. `table` is the
bundled display-name → service-id mapping; tiers in strict order: exact key
match, normalized match, the substring-ambiguity guard for inputs shorter
than 10 characters (one match resolves, two or more fail ambiguous with up
to 5 example names, zero falls through), then the fuzzy tier. -/
def lookup_api (closeMatches : String → List String → List String)
    (table : List (String × String)) (name : String) : Except APIError String :=
  match table.find? (fun kv => kv.1 == name) with
  | some kv => .ok kv.2
  | none =>
    match table.find? (fun kv => normalizeApiName kv.1 == normalizeApiName name) with
    | some kv => .ok kv.2
    | none =>
      if name.length < 10 then
        match table.filter (fun kv => strContains (pyLower kv.1) (pyLower name)) with
        | [] => fuzzyTier closeMatches table name
        | [kv] => .ok kv.2
        | ms => .error (.ambiguous ((ms.map (fun kv => kv.1)).take 5))
      else fuzzyTier closeMatches table name

/-- Structural induction over `RemoteTree` through its child-folder list. -/
def RemoteTree.inductionOn {motive : RemoteTree → Prop}
    (h : ∀ n dn ps cs, (∀ c ∈ cs, motive c) → motive (.node n dn ps cs)) :
    ∀ t, motive t
  | .node n dn ps cs => h n dn ps cs (fun c hc => RemoteTree.inductionOn h c)
termination_by t => sizeOf t
decreasing_by
  simp only [RemoteTree.node.sizeOf_spec]
  have := List.sizeOf_lt_of_mem hc
  omega

/-! ## Concrete sample data, used to evaluate the definitions -/

def pd1 : ProjectData := ⟨"p1", "projects/p1", "101", "ACTIVE", none⟩

def pd2 : ProjectData := ⟨"p2", "projects/p2", "102", "DELETE_REQUESTED", some "folder"⟩

def pdN : ProjectData := ⟨"pn", "projects/pn", "103", "ACTIVE", none⟩

def devTree : RemoteTree := .node "folders/2" "dev" [pd2] []

def t0 : RemoteTree := .node "organizations/1" "Acme" [pd1] [devTree]

def r0 : Remote := ⟨t0, [pdN]⟩

def org0 : Container := .organization "1" "organizations/1" "Acme"

/-- A fuzzy routine standing in for `difflib.get_close_matches` that finds
no close match. -/
def cm0 : String → List String → List String := fun _ _ => []

def table0 : List (String × String) :=
  [("Compute Engine API", "compute.googleapis.com"),
   ("Cloud Storage API", "storage.googleapis.com"),
   ("BigQuery API", "bigquery.googleapis.com")]

/-! ## Infrastructure lemmas -/

theorem walk_folderSnapshot (ao : Bool) (prn : String) (c : RemoteTree)
    (v1 : List ProjectData) :
    walk_projects ao (folderSnapshot prn c) ⟨c, v1⟩ =
      treeWalk ao (folderSnapshot prn c) c := by
  cases c with
  | node n dn ps cs =>
    simp [walk_projects, treeWalk, Container.projectsOp, folderSnapshot,
      RemoteTree.projects, RemoteTree.folders, RemoteTree.name,
      RemoteTree.displayName, Container.resource_name]

theorem foldersWithTrees_not_noorg {self : Container} (h : self ≠ .NO_ORG)
    (r : Remote) :
    self.foldersWithTrees r =
      r.subtree.folders.map (fun c => (folderSnapshot self.resource_name c, c)) := by
  cases self with
  | NO_ORG => exact absurd rfl h
  | organization i rn dn => rfl
  | folder i rn dn prn => rfl

theorem walk_not_noorg (ao : Bool) {self : Container} (h : self ≠ .NO_ORG)
    (r : Remote) :
    walk_projects ao self r =
      ((self.projectsOp r).filter (keepProject ao))
        ++ forestWalk ao self.resource_name r.subtree.folders := by
  cases self with
  | NO_ORG => exact absurd rfl h
  | organization i rn dn => rfl
  | folder i rn dn prn => rfl

theorem walk_noorg (ao : Bool) (r : Remote) :
    walk_projects ao .NO_ORG r =
      (Container.NO_ORG.projectsOp r).filter (keepProject ao) := by
  simp [walk_projects, forestWalk]

theorem mem_forestWalk (ao : Bool) (prn : String) (p : Project)
    (cs : List RemoteTree) :
    p ∈ forestWalk ao prn cs ↔
      ∃ c ∈ cs, p ∈ treeWalk ao (folderSnapshot prn c) c := by
  induction cs with
  | nil => simp [forestWalk]
  | cons c cs ih => simp [forestWalk, List.mem_append, ih]

theorem forestWalk_eq_join (ao : Bool) (prn : String) (v1 : List ProjectData)
    (cs : List RemoteTree) :
    forestWalk ao prn cs =
      (cs.map (fun c => walk_projects ao (folderSnapshot prn c) ⟨c, v1⟩)).flatten := by
  induction cs with
  | nil => simp [forestWalk]
  | cons c cs ih => simp [forestWalk, ih, walk_folderSnapshot]

theorem walk_preorder_eq (ao : Bool) (self : Container) (r : Remote) :
    walk_projects ao self r =
      (self.projectsOp r).filter (keepProject ao)
        ++ ((self.foldersWithTrees r).map
            (fun fs => walk_projects ao fs.1 ⟨fs.2, r.v1Projects⟩)).flatten := by
  by_cases hno : self = .NO_ORG
  · subst hno
    simp [walk_projects, Container.foldersWithTrees, forestWalk]
  · rw [walk_not_noorg ao hno, foldersWithTrees_not_noorg hno,
      forestWalk_eq_join ao self.resource_name r.v1Projects, List.map_map]
    rfl

theorem reaches_mem {ao : Bool} {self : Container} {r : Remote} {p : Project}
    (h : Reaches ao self r p) : p ∈ walk_projects ao self r := by
  induction h with
  | @here self r p hmem hkeep =>
    rw [walk_preorder_eq]
    exact List.mem_append_left _ (List.mem_filter.mpr ⟨hmem, hkeep⟩)
  | @child self r p fs hfs hr ih =>
    by_cases hno : self = .NO_ORG
    · subst hno
      simp [Container.foldersWithTrees] at hfs
    · rw [foldersWithTrees_not_noorg hno] at hfs
      obtain ⟨c, hc, rfl⟩ := List.mem_map.mp hfs
      rw [walk_not_noorg ao hno]
      refine List.mem_append_right _ ?_
      refine (mem_forestWalk ao self.resource_name p r.subtree.folders).mpr
        ⟨c, hc, ?_⟩
      rw [walk_folderSnapshot] at ih
      exact ih

theorem mem_walk_reaches (ao : Bool) :
    ∀ (t : RemoteTree) (self : Container) (v1 : List ProjectData) (p : Project),
      p ∈ walk_projects ao self ⟨t, v1⟩ → Reaches ao self ⟨t, v1⟩ p := by
  intro t
  induction t using RemoteTree.inductionOn with
  | h n dn ps cs ih =>
    intro self v1 p hp
    by_cases hno : self = .NO_ORG
    · subst hno
      rw [walk_noorg] at hp
      exact Reaches.here (List.mem_filter.mp hp).1 (List.mem_filter.mp hp).2
    · rw [walk_not_noorg ao hno] at hp
      rcases List.mem_append.mp hp with hl | hr
      · exact Reaches.here (List.mem_filter.mp hl).1 (List.mem_filter.mp hl).2
      · obtain ⟨c, hc, hpc⟩ :=
          (mem_forestWalk ao self.resource_name p (RemoteTree.folders _)).mp hr
        refine Reaches.child (folderSnapshot self.resource_name c, c) ?_ ?_
        · rw [foldersWithTrees_not_noorg hno]
          exact List.mem_map_of_mem _ hc
        · refine ih c hc _ _ _ ?_
          rw [walk_folderSnapshot]
          exact hpc

theorem mem_walk_iff (ao : Bool) (self : Container) (r : Remote) (p : Project) :
    p ∈ walk_projects ao self r ↔ Reaches ao self r p := by
  obtain ⟨t, v1⟩ := r
  exact ⟨mem_walk_reaches ao t self v1 p, reaches_mem⟩

theorem reaches_keep {ao : Bool} {self : Container} {r : Remote} {p : Project}
    (h : Reaches ao self r p) : keepProject ao p = true := by
  induction h with
  | here _ hk => exact hk
  | child _ _ _ ih => exact ih

theorem keepProject_false (p : Project) : keepProject false p = true := rfl

theorem filter_keep_sublist (l : List Project) :
    (l.filter (keepProject true)).Sublist (l.filter (keepProject false)) := by
  rw [List.filter_eq_self.mpr (fun a _ => keepProject_false a)]
  exact l.filter_sublist

theorem forestWalk_sublist (prn : String) (cs : List RemoteTree)
    (h : ∀ c ∈ cs, ∀ self : Container,
      (treeWalk true self c).Sublist (treeWalk false self c)) :
    (forestWalk true prn cs).Sublist (forestWalk false prn cs) := by
  induction cs with
  | nil => simp [forestWalk]
  | cons c cs ih =>
    simp only [forestWalk]
    exact List.Sublist.append (h c (List.mem_cons_self c cs) _)
      (ih fun c' hc' => h c' (List.mem_cons_of_mem _ hc'))

theorem treeWalk_sublist (t : RemoteTree) :
    ∀ self : Container, (treeWalk true self t).Sublist (treeWalk false self t) := by
  induction t using RemoteTree.inductionOn with
  | h n dn ps cs ih =>
    intro self
    simp only [treeWalk]
    exact List.Sublist.append (filter_keep_sublist _)
      (forestWalk_sublist _ cs fun c hc => ih c hc)

theorem walk_sublist (self : Container) (r : Remote) :
    (walk_projects true self r).Sublist (walk_projects false self r) := by
  by_cases hno : self = .NO_ORG
  · subst hno
    rw [walk_noorg, walk_noorg]
    exact filter_keep_sublist _
  · rw [walk_not_noorg true hno, walk_not_noorg false hno]
    exact List.Sublist.append (filter_keep_sublist _)
      (forestWalk_sublist _ _ fun c _ => treeWalk_sublist c)

theorem forestWalk_ids (ao : Bool) (prn : String) (cs : List RemoteTree)
    (h : ∀ c ∈ cs, ∀ self : Container,
      ((treeWalk ao self c).map (fun p => p.id)).Sublist (treeIds c)) :
    ((forestWalk ao prn cs).map (fun p => p.id)).Sublist (forestIds cs) := by
  induction cs with
  | nil => simp [forestWalk, forestIds]
  | cons c cs ih =>
    simp only [forestWalk, forestIds, List.map_append]
    exact List.Sublist.append (h c (List.mem_cons_self c cs) _)
      (ih fun c' hc' => h c' (List.mem_cons_of_mem _ hc'))

theorem filtered_projects_ids (self : Container) (ao : Bool)
    (ps : List ProjectData) :
    ((((ps.map (fun p => _project_from_api_response p self)).filter
        (keepProject ao)).map (fun p => p.id))).Sublist
      (ps.map (fun p => p.projectId)) := by
  have h1 := List.Sublist.map (fun p => p.id)
    ((ps.map (fun p => _project_from_api_response p self)).filter_sublist
      (p := keepProject ao))
  rw [List.map_map] at h1
  exact h1

theorem treeWalk_ids (t : RemoteTree) :
    ∀ (ao : Bool) (self : Container),
      ((treeWalk ao self t).map (fun p => p.id)).Sublist (treeIds t) := by
  induction t using RemoteTree.inductionOn with
  | h n dn ps cs ih =>
    intro ao self
    simp only [treeWalk, treeIds, List.map_append]
    exact List.Sublist.append (filtered_projects_ids self ao ps)
      (forestWalk_ids ao _ cs fun c hc => ih c hc ao)

theorem walk_ids (ao : Bool) (self : Container) (r : Remote) :
    ((walk_projects ao self r).map (fun p => p.id)).Sublist (allIds self r) := by
  by_cases hno : self = .NO_ORG
  · subst hno
    rw [walk_noorg]
    simp only [allIds, forestIds, List.append_nil]
    exact List.Sublist.map _ (List.filter_sublist _)
  · rw [walk_not_noorg ao hno]
    have hall : allIds self r = (self.projectsOp r).map (fun p => p.id)
        ++ forestIds r.subtree.folders := by
      cases self with
      | NO_ORG => exact absurd rfl hno
      | organization i rn dn => rfl
      | folder i rn dn prn => rfl
    rw [hall, List.map_append]
    exact List.Sublist.append (List.Sublist.map _ (List.filter_sublist _))
      (forestWalk_ids ao _ _ fun c _ => treeWalk_ids c ao)

theorem walk_nodup (ao : Bool) (self : Container) (r : Remote)
    (h : (allIds self r).Nodup) : (walk_projects ao self r).Nodup :=
  ((walk_ids ao self r).nodup h).of_map _

theorem projectsOp_parent {p : Project} {self : Container} {r : Remote}
    (h : p ∈ self.projectsOp r) : p.parent = self := by
  cases self with
  | NO_ORG =>
    obtain ⟨pd, _, rfl⟩ := List.mem_map.mp h
    rfl
  | organization i rn dn =>
    obtain ⟨pd, _, rfl⟩ := List.mem_map.mp h
    rfl
  | folder i rn dn prn =>
    obtain ⟨pd, _, rfl⟩ := List.mem_map.mp h
    rfl

theorem reaches_parent {ao : Bool} {self : Container} {r : Remote} {p : Project}
    (h : Reaches ao self r p) :
    ∃ (c : Container) (r' : Remote),
      Visits self r c r' ∧ p ∈ c.projectsOp r' ∧ p.parent = c := by
  induction h with
  | @here self r p hmem hkeep =>
    exact ⟨self, r, Visits.refl, hmem, projectsOp_parent hmem⟩
  | @child self r p fs hfs hr ih =>
    obtain ⟨c, r', hv, hm, hp⟩ := ih
    exact ⟨c, r', Visits.child fs hfs hv, hm, hp⟩

theorem find_unique_folder (comp : String) (l : List RemoteTree) (F : RemoteTree)
    (hF : F ∈ l) (hd : F.displayName = comp)
    (uniq : ∀ F' ∈ l, F'.displayName = comp → F' = F) :
    l.find? (fun c => c.displayName == comp) = some F := by
  induction l with
  | nil => cases hF
  | cons c cs ih =>
    by_cases hc : c.displayName = comp
    · have hcF : c = F := uniq c (List.mem_cons_self c cs) hc
      subst hcF
      rw [List.find?_cons_of_pos _ (by simp [hc])]
    · rw [List.find?_cons_of_neg _ (by simp [hc])]
      rcases List.mem_cons.mp hF with rfl | hmem
      · exact absurd hd hc
      · exact ih hmem (fun F' h' => uniq F' (List.mem_cons_of_mem _ h'))

theorem find_folderSnapshot (comp rn : String) (l : List RemoteTree)
    (F : RemoteTree)
    (h : l.find? (fun c => c.displayName == comp) = some F) :
    (l.map (fun c => (folderSnapshot rn c, c))).find?
        (fun fs => fs.1.display_name == comp) = some (folderSnapshot rn F, F) := by
  induction l with
  | nil => simp at h
  | cons c cs ih =>
    by_cases hc : c.displayName = comp
    · rw [List.find?_cons_of_pos _ (by simp [hc])] at h
      rw [List.map_cons,
        List.find?_cons_of_pos _ (by simp [folderSnapshot, Container.display_name, hc])]
      cases h
      rfl
    · rw [List.find?_cons_of_neg _ (by simp [hc])] at h
      rw [List.map_cons,
        List.find?_cons_of_neg _ (by simp [folderSnapshot, Container.display_name, hc])]
      exact ih h

/-! ## Claim theorems -/

/-- C1. For every container, `walk_projects` yields exactly the projects
reachable by finite recursive descent through the child-folder listing
(membership is `Reaches`), in depth-first pre-order: all immediate projects
first, then each immediate child folder's projects recursively in listing
order before the next sibling; and when the project ids the traversal can
see are pairwise distinct, no project is yielded twice. -/
theorem walk_projects_tree_shape (ao : Bool) (self : Container) (r : Remote) :
    (∀ p : Project, p ∈ walk_projects ao self r ↔ Reaches ao self r p)
    ∧ walk_projects ao self r =
        (self.projectsOp r).filter (keepProject ao)
          ++ ((self.foldersWithTrees r).map
              (fun fs => walk_projects ao fs.1 ⟨fs.2, r.v1Projects⟩)).flatten
    ∧ ((allIds self r).Nodup → (walk_projects ao self r).Nodup) :=
  ⟨fun p => mem_walk_iff ao self r p, walk_preorder_eq ao self r,
    walk_nodup ao self r⟩

theorem walk_projects_tree_shape_attest :
    (allIds org0 r0).Nodup ∧ (walk_projects true org0 r0).Nodup :=
  ⟨by decide, (walk_projects_tree_shape true org0 r0).2.2 (by decide)⟩

/-- C2. Every project yielded with `active_only = true` has
`lifecycle_state == "ACTIVE"`, and the sequence yielded with
`active_only = false` is a superset (indeed a supersequence) of the
`active_only = true` sequence. -/
theorem walk_projects_active_only (self : Container) (r : Remote) :
    (∀ p ∈ walk_projects true self r, p.lifecycle_state = "ACTIVE")
    ∧ (walk_projects true self r).Sublist (walk_projects false self r)
    ∧ (∀ p ∈ walk_projects true self r, p ∈ walk_projects false self r) := by
  refine ⟨?_, walk_sublist self r, ?_⟩
  · intro p hp
    have hk := reaches_keep ((mem_walk_iff true self r p).mp hp)
    simpa [keepProject] using hk
  · intro p hp
    exact (walk_sublist self r).mem hp

theorem walk_projects_active_only_attest :
    (_project_from_api_response pd1 org0).lifecycle_state = "ACTIVE"
    ∧ _project_from_api_response pd1 org0 ∈ walk_projects false org0 r0 :=
  ⟨(walk_projects_active_only org0 r0).1 _ (by decide),
   (walk_projects_active_only org0 r0).2.2 _ (by decide)⟩

/-- C8. `cd` on the `NO_ORG` sentinel always fails with the
`UnsupportedOperationError` (`TypeError`) of the sentinel guard, for every
path and every remote world, before any folder listing. -/
theorem cd_on_no_org (r : Remote) (path : String) :
    cd .NO_ORG r path = .error .unsupportedOperation := by
  simp [cd]

/-- C9. `NO_ORG.folders()` always returns the empty list (fixed policy, no
remote call), so `walk_projects` on the sentinel never descends into
folders: it yields exactly the sentinel's immediate parentless projects
(through the active filter). -/
theorem no_org_folders_policy (ao : Bool) (r : Remote) :
    Container.NO_ORG.foldersOp r = []
    ∧ walk_projects ao .NO_ORG r =
        ((r.v1Projects.filter isParentless).map
          (fun p => _project_from_api_response p .NO_ORG)).filter
          (keepProject ao) := by
  exact ⟨rfl, walk_noorg ao r⟩

/-- C10. Every project yielded by `walk_projects` carries as `parent` exactly
the container whose child-project listing produced it: a container the
traversal visits, with the project in that container's own listing; the
traversal never re-parents a yielded project. -/
theorem walk_projects_parent_invariant (ao : Bool) (self : Container)
    (r : Remote) (p : Project) (hp : p ∈ walk_projects ao self r) :
    ∃ (c : Container) (r' : Remote),
      Visits self r c r' ∧ p ∈ c.projectsOp r' ∧ p.parent = c :=
  reaches_parent ((mem_walk_iff ao self r p).mp hp)

theorem walk_projects_parent_invariant_attest :
    ∃ (c : Container) (r' : Remote),
      Visits org0 r0 c r' ∧
        _project_from_api_response pd1 org0 ∈ c.projectsOp r'
        ∧ (_project_from_api_response pd1 org0).parent = c :=
  walk_projects_parent_invariant true org0 r0 _ (by decide)

/-- C3. If `F` is the child folder of an organization with display name
`"dev"` (unique among its siblings, the listing-order tie-break of §9 never
arising), then `cd(org, "dev")` returns a folder whose `resource_name`
equals `F`'s resource name. -/
theorem cd_round_trip (i rn dn : String) (r : Remote) (F : RemoteTree)
    (hF : F ∈ r.subtree.folders) (hd : F.displayName = "dev")
    (uniq : ∀ F' ∈ r.subtree.folders, F'.displayName = "dev" → F' = F) :
    ∃ c : Container, cd (.organization i rn dn) r "dev" = .ok c
      ∧ c.resource_name = F.name := by
  refine ⟨folderSnapshot rn F, ?_, rfl⟩
  have hfind := find_folderSnapshot "dev" rn r.subtree.folders F
    (find_unique_folder "dev" r.subtree.folders F hF hd uniq)
  show cdLoop ["dev"] (.organization i rn dn) r = .ok (folderSnapshot rn F)
  simp only [cdLoop, Container.foldersWithTrees, Container.resource_name]
  rw [hfind]

theorem cd_round_trip_attest :
    ∃ c : Container, cd (.organization "1" "organizations/1" "Acme") r0 "dev" = .ok c
      ∧ c.resource_name = devTree.name :=
  cd_round_trip "1" "organizations/1" "Acme" r0 devTree
    (by simp [r0, t0, RemoteTree.folders])
    (by decide)
    (by
      intro F' hF' _
      simpa [r0, t0, RemoteTree.folders] using hF')

/-- C4. `cd` steps through the slash-separated path components; at each step
it selects the first child folder whose `display_name` exactly equals the
component, and when a component has no exactly-equal match it fails with the
`NotFoundError` carrying the available sibling folder display names. -/
theorem cd_stepping (self cur : Container) (r : Remote) (path comp : String)
    (rest : List String) (fs : Container × RemoteTree) :
    (self ≠ .NO_ORG → stripSlashes path ≠ "" →
      cd self r path = cdLoop (pySplit (stripSlashes path) '/') self r)
    ∧ ((cur.foldersWithTrees r).find? (fun x => x.1.display_name == comp) = some fs →
        cdLoop (comp :: rest) cur r = cdLoop rest fs.1 ⟨fs.2, r.v1Projects⟩)
    ∧ ((∀ x ∈ cur.foldersWithTrees r, x.1.display_name ≠ comp) →
        cdLoop (comp :: rest) cur r =
          .error (.notFound comp cur.display_name
            ((cur.foldersWithTrees r).map (fun x => x.1.display_name)))) := by
  refine ⟨?_, ?_, ?_⟩
  · intro h1 h2
    simp only [cd]
    rw [if_neg h1, if_neg h2]
  · intro hfind
    simp only [cdLoop]
    rw [hfind]
  · intro hnone
    simp only [cdLoop]
    rw [List.find?_eq_none.mpr (fun x hx => by simpa using hnone x hx)]

theorem cd_stepping_attest :
    (cd org0 r0 "/dev/" = cdLoop ["dev"] org0 r0)
    ∧ (cdLoop ["dev"] org0 r0 =
        cdLoop [] (folderSnapshot "organizations/1" devTree) ⟨devTree, [pdN]⟩)
    ∧ (cdLoop ["zzz"] org0 r0 =
        .error (.notFound "zzz" "Acme" ["dev"])) :=
  ⟨(cd_stepping org0 org0 r0 "/dev/" "dev" [] (folderSnapshot "organizations/1" devTree, devTree)).1
      (by decide) (by decide),
   (cd_stepping org0 org0 r0 "/dev/" "dev" [] (folderSnapshot "organizations/1" devTree, devTree)).2.1
      (by rfl),
   (cd_stepping org0 org0 r0 "x" "zzz" [] (folderSnapshot "organizations/1" devTree, devTree)).2.2
      (by decide)⟩

/-- C5. For every organization or folder, `cd` fails with the
`InvalidArgumentError` (`ValueError("Path cannot be empty")`) whenever the
path is empty after stripping leading and trailing slashes; in particular
`""`, `"/"` and `"//"` each do. -/
theorem cd_empty_path (self : Container) (r : Remote) (path : String)
    (h1 : self ≠ .NO_ORG) (h2 : stripSlashes path = "") :
    cd self r path = .error .invalidArgument := by
  simp only [cd]
  rw [if_neg h1, if_pos h2]

theorem cd_empty_path_attest :
    cd org0 r0 "" = .error .invalidArgument
    ∧ cd org0 r0 "/" = .error .invalidArgument
    ∧ cd org0 r0 "//" = .error .invalidArgument :=
  ⟨cd_empty_path org0 r0 "" (by decide) (by decide),
   cd_empty_path org0 r0 "/" (by decide) (by decide),
   cd_empty_path org0 r0 "//" (by decide) (by decide)⟩

/-- C6. The first (exact-match) tier of `lookup_api`: when the input equals
a table key verbatim (the first such entry found), the resolver returns that
key's canonical id, for any fuzzy routine and any table. -/
theorem lookup_api_exact_tier (cm : String → List String → List String)
    (table : List (String × String)) (name : String) (kv : String × String)
    (h : table.find? (fun x => x.1 == name) = some kv) :
    lookup_api cm table name = .ok kv.2 := by
  simp only [lookup_api]
  rw [h]

theorem lookup_api_exact_tier_attest :
    table0.find? (fun x => x.1 == "Compute Engine API") =
      some ("Compute Engine API", "compute.googleapis.com")
    ∧ lookup_api cm0 table0 "Compute Engine API" = .ok "compute.googleapis.com" :=
  ⟨by decide,
   lookup_api_exact_tier cm0 table0 "Compute Engine API"
     ("Compute Engine API", "compute.googleapis.com") (by decide)⟩

/-- C7. The failure tiers of `lookup_api`, once the exact and normalized
tiers produce nothing: a short input (length < 10) with two or more
case-insensitive substring matches among the keys fails with the
`AmbiguousNameError` listing up to 5 example matching names, and when the
substring guard also yields nothing and the fuzzy routine returns no
candidate, the resolver fails with the `NotFoundError`. -/
theorem lookup_api_failure_tiers (cm : String → List String → List String)
    (table : List (String × String)) (name : String)
    (h1 : table.find? (fun kv => kv.1 == name) = none)
    (h2 : table.find?
      (fun kv => normalizeApiName kv.1 == normalizeApiName name) = none) :
    (name.length < 10 →
      2 ≤ (table.filter (fun kv => strContains (pyLower kv.1) (pyLower name))).length →
      lookup_api cm table name =
        .error (.ambiguous
          (((table.filter (fun kv => strContains (pyLower kv.1) (pyLower name))).map
            (fun kv => kv.1)).take 5)))
    ∧ ((name.length < 10 →
          table.filter (fun kv => strContains (pyLower kv.1) (pyLower name)) = []) →
        cm name (table.map (fun kv => kv.1)) = [] →
        lookup_api cm table name = .error .notFound) := by
  constructor
  · intro hlen hcard
    simp only [lookup_api]
    rw [h1, h2, if_pos hlen]
    rcases hfil : table.filter (fun kv => strContains (pyLower kv.1) (pyLower name)) with
      _ | ⟨a, _ | ⟨b, rest⟩⟩
    · rw [hfil] at hcard
      simp at hcard
    · rw [hfil] at hcard
      simp at hcard
    · rw [hfil]
  · intro hshort hcm
    simp only [lookup_api]
    rw [h1, h2]
    by_cases hlen : name.length < 10
    · rw [if_pos hlen, hshort hlen]
      simp only [fuzzyTier]
      rw [hcm]
    · rw [if_neg hlen]
      simp only [fuzzyTier]
      rw [hcm]

theorem lookup_api_failure_tiers_attest :
    lookup_api cm0 table0 "API" =
      .error (.ambiguous ["Compute Engine API", "Cloud Storage API", "BigQuery API"])
    ∧ lookup_api cm0 table0 "ThisDoesNotExist12345" = .error .notFound :=
  ⟨(lookup_api_failure_tiers cm0 table0 "API" (by decide) (by decide)).1
      (by decide) (by decide),
   (lookup_api_failure_tiers cm0 table0 "ThisDoesNotExist12345" (by decide)
      (by decide)).2 (by decide) (by decide)⟩

end PdumGcp
